import Mathlib

/-!
Shallow embedding of the edge request-gating layer of the
AICodeExplainer worker (file `app/lib/middleware.ts`, exposed in
`src/app/routes/home.tsx`, and the worker entry `fetch` in
`src/unnamed/part_000`): payload-size enforcement (`parseSize`,
`checkBodySizeLimit`), the fixed-window rate limiter (`RateLimiter`,
`checkRateLimit`), CORS handling (`handleCORS`, `addCORSHeaders`),
security headers (`addSecurityHeaders`), the middleware chain
(`applyMiddleware`) and the worker `fetch` orchestration.

Modelling conventions:
* JS strings are Lean `String`s; a nullable header value is `Option String`
  (`none` = header absent / `null`).
* Timestamps (`Date.now()`, `resetAt`) are `Nat` milliseconds; the two
  `Date.now()` reads inside one `checkRateLimit` call are modelled as the
  same instant `now`.
* The probabilistic cleanup trigger (`Math.random() < 0.001`) is modelled
  as an explicit boolean input `doCleanup`.
* The rate limiter's `Map` is a total function `String → Option ClientRecord`.
* `Response.json` bodies are kept structured (`Body.json error message`)
  rather than serialized; `Date.toISOString` is modelled as an injective
  encoding of the millisecond timestamp (no claim depends on the calendar
  text of the header, only on when it is present and whether it changes).
* JS number results that the code can make negative (`remaining`,
  `parseInt` results) are `Int`.
-/

/-- One HTTP response, as far as the gating layer observes and builds it. -/
inductive Body where
  | empty
  | text (s : String)
  | json (error : String) (message : String)
deriving DecidableEq, Repr

structure ResponseInfo where
  status : Nat
  body : Body
  headers : List (String × String)
deriving DecidableEq, Repr

/-- The request headers the gating layer reads, plus the method. -/
structure RequestInfo where
  method : String
  contentLength : Option String
  origin : Option String
  cfConnectingIp : Option String
  userAgent : Option String
deriving DecidableEq, Repr

/-- Per-character ASCII lowering (the relevant fragment of JS
`toLowerCase()` / case-insensitive header-name comparison). -/
def lowerStr (s : String) : List Char := s.toList.map Char.toLower

/-- JS `Headers.get`: case-insensitive lookup of the first matching header. -/
def hget (hs : List (String × String)) (name : String) : Option String :=
  (hs.find? (fun p => lowerStr p.1 = lowerStr name)).map (fun p => p.2)

/-- JS `Headers.set`: case-insensitively replace any existing value. -/
def hset (hs : List (String × String)) (name v : String) : List (String × String) :=
  hs.filter (fun p => ¬ (lowerStr p.1 = lowerStr name)) ++ [(name, v)]

/-- Digit list to the `Nat` it denotes (most significant first). -/
def digitsToNat (ds : List Char) : Nat :=
  ds.foldl (fun acc c => acc * 10 + (c.toNat - 48)) 0

/-- The unit table of `parseSize`: `{ b: 1, kb: 1024, mb: 1024², gb: 1024³ }`,
with the source's `units[unit] || 1` defaulting for unknown units. -/
def unitMultiplier (unit : List Char) : Nat :=
  if unit = [ 'b' ] then 1
  else if unit = [ 'k', 'b' ] then 1024
  else if unit = [ 'm', 'b' ] then 1024 * 1024
  else if unit = [ 'g', 'b' ] then 1024 * 1024 * 1024
  else 1

/-- Core of `parseSize` after lowercasing, mirroring the regex
`^(\d+(?:\.\d+)?)\s*([a-z]+)?$`: integer digits, optional fractional
digits, optional whitespace, optional alphabetic unit.  `parseFloat` of
the matched decimal followed by `Math.floor(value * multiplier)` is
computed exactly as `⌊(intFrac / 10^k) * multiplier⌋` via `Nat` division
(the matched literal `d₁.d₂` is the exact rational `intFrac / 10^k`).
`none` models the thrown `Invalid size format` error.
`parseSizeTail` handles the part after the matched number: optional
whitespace, optional unit letters, end of string. -/
def parseSizeTail (intDigits fracDigits rest2 : List Char) : Option Nat :=
  let rest3 := rest2.dropWhile Char.isWhitespace
  let unit := rest3.takeWhile (fun c => 'a' ≤ c ∧ c ≤ 'z')
  let rest4 := rest3.dropWhile (fun c => 'a' ≤ c ∧ c ≤ 'z')
  if rest4 = [] then
    some (digitsToNat (intDigits ++ fracDigits) * unitMultiplier unit
          / 10 ^ fracDigits.length)
  else none

def parseSizeCore (cs : List Char) : Option Nat :=
  let intDigits := cs.takeWhile Char.isDigit
  let rest1 := cs.dropWhile Char.isDigit
  if intDigits = [] then none
  else if rest1.head? = some '.' then
    let tl := rest1.tail
    let fracDigits := tl.takeWhile Char.isDigit
    if fracDigits = [] then none
    else parseSizeTail intDigits fracDigits (tl.dropWhile Char.isDigit)
  else parseSizeTail intDigits [] rest1

/-- `parseSize(size)`: size string to byte count; `none` = the function
throws (`Invalid size format`).  The source lowercases the input before
matching (`size.toLowerCase()`), modelled as a per-character ASCII lowering. -/
def parseSize (size : String) : Option Nat :=
  parseSizeCore (lowerStr size)

/-- JS `parseInt(s, 10)`: skip leading whitespace, optional sign, then the
longest digit prefix; `none` models `NaN` (no digits found). -/
def jsParseInt (s : String) : Option Int :=
  let cs := s.toList.dropWhile Char.isWhitespace
  let signAndRest : Int × List Char :=
    match cs with
    | '-' :: tl => (-1, tl)
    | '+' :: tl => (1, tl)
    | _ => (1, cs)
  let ds := signAndRest.2.takeWhile Char.isDigit
  if ds = [] then none
  else some (signAndRest.1 * (digitsToNat ds : Int))

/-- Result of `checkBodySizeLimit`: `{ valid: boolean; error?: Response }`. -/
structure SizeCheckResult where
  valid : Bool
  error : Option ResponseInfo
deriving DecidableEq, Repr

/-- The 413 body text: `Request body size (${requestSize} bytes) exceeds
limit (${sizeLimit} bytes)`. -/
def sizeLimitMessage (requestSize : Int) (sizeLimit : Nat) : String :=
  "Request body size (" ++ toString requestSize ++
    " bytes) exceeds limit (" ++ toString sizeLimit ++ " bytes)"

/-- `checkBodySizeLimit(request, limit)`.  `Except.error` models the
propagated `parseSize` throw (only reachable when a `Content-Length`
header is present and truthy, since `parseSize` is called inside the
`if (contentLength)` branch).  A `NaN` `parseInt` result compares false
against the limit, so such a request passes. -/
def checkBodySizeLimit (req : RequestInfo) (limit : String) :
    Except String SizeCheckResult :=
  match req.contentLength with
  | none => .ok ⟨true, none⟩
  | some cl =>
    if cl = "" then .ok ⟨true, none⟩
    else
      match parseSize limit with
      | none => .error ("Invalid size format: " ++ limit)
      | some sizeLimit =>
        match jsParseInt cl with
        | none => .ok ⟨true, none⟩
        | some requestSize =>
          if (sizeLimit : Int) < requestSize then
            .ok ⟨false, some
              ⟨413, .json "Payload too large"
                      (sizeLimitMessage requestSize sizeLimit), []⟩⟩
          else .ok ⟨true, none⟩

/-- One client's stored window: `{ count: number; resetAt: number }`. -/
structure ClientRecord where
  count : Nat
  resetAt : Nat
deriving DecidableEq, Repr

/-- The limiter's `Map<string, ClientRecord>`, as a total function. -/
def LimiterState : Type := String → Option ClientRecord

def LimiterState.empty : LimiterState := fun _ => none

def LimiterState.set (st : LimiterState) (k : String) (r : ClientRecord) :
    LimiterState :=
  fun k2 => if k2 = k then some r else st k2

/-- Constructor arguments of `RateLimiter`. -/
structure RateLimiter where
  maxRequests : Nat
  windowMs : Nat
deriving DecidableEq, Repr

/-- Result of `RateLimiter.isAllowed` (all three fields are set on every
path in the source, so they are not optional here). -/
structure Verdict where
  allowed : Bool
  remaining : Int
  resetAt : Nat
deriving DecidableEq, Repr

/-- `getClientId(request)`: the `cf-connecting-ip` header if truthy, else
the composite `` `${userAgent}-${origin}` `` with `"unknown"` for each
missing/empty part (`||` treats the empty string as falsy). -/
def getClientId (req : RequestInfo) : String :=
  match req.cfConnectingIp with
  | some ip =>
    if ip = "" then
      (req.userAgent.getD "unknown" |> fun ua => if ua = "" then "unknown" else ua) ++
        "-" ++ (req.origin.getD "unknown" |> fun o => if o = "" then "unknown" else o)
    else ip
  | none =>
    (req.userAgent.getD "unknown" |> fun ua => if ua = "" then "unknown" else ua) ++
      "-" ++ (req.origin.getD "unknown" |> fun o => if o = "" then "unknown" else o)

/-- `RateLimiter.isAllowed`, with the client id already resolved and the
`Date.now()` reading passed as `now`.  Returns the verdict and the updated
map. -/
def RateLimiter.isAllowed (rl : RateLimiter) (st : LimiterState)
    (clientId : String) (now : Nat) : Verdict × LimiterState :=
  match st clientId with
  | none =>
    (⟨true, (rl.maxRequests : Int) - 1, now + rl.windowMs⟩,
     st.set clientId ⟨1, now + rl.windowMs⟩)
  | some record =>
    if record.resetAt < now then
      -- `now > record.resetAt`: new window
      (⟨true, (rl.maxRequests : Int) - 1, now + rl.windowMs⟩,
       st.set clientId ⟨1, now + rl.windowMs⟩)
    else if rl.maxRequests ≤ record.count then
      (⟨false, 0, record.resetAt⟩, st)
    else
      (⟨true, (rl.maxRequests : Int) - (record.count + 1), record.resetAt⟩,
       st.set clientId ⟨record.count + 1, record.resetAt⟩)

/-- `RateLimiter.cleanup`: delete every entry whose `resetAt` has passed. -/
def RateLimiter.cleanup (st : LimiterState) (now : Nat) : LimiterState :=
  fun k =>
    match st k with
    | some r => if r.resetAt < now then none else some r
    | none => none

/-- The module-level `rateLimiter = new RateLimiter(100, 60000)`. -/
def globalRateLimiter : RateLimiter := ⟨100, 60000⟩

/-- `new Date(ms).toISOString()`, modelled as an injective encoding of the
millisecond timestamp; no claim depends on the calendar text. -/
def toISOString (ms : Nat) : String := "date-iso(" ++ toString ms ++ ")"

/-- Result of `checkRateLimit`: `{ allowed; error?; headers? }` (the
`headers` field is set on both paths in the source). -/
structure RateCheckResult where
  allowed : Bool
  error : Option ResponseInfo
  headers : List (String × String)
deriving DecidableEq, Repr

/-- `Math.ceil((resetAt - now) / 1000)` for the `Retry-After` header; on
the only path that computes it, `now ≤ resetAt` holds, where it agrees
with this `Nat` ceiling division. -/
def retryAfterSeconds (resetAt now : Nat) : Nat := (resetAt - now + 999) / 1000

/-- The `X-RateLimit-*` header block built by `checkRateLimit`: the limit
from the `maxRequests` argument, the remaining and reset values from the
limiter's verdict (`X-RateLimit-Reset` is set when `result.resetAt` is
truthy). -/
def rateLimitHeaders (maxRequests : Nat) (result : Verdict) :
    List (String × String) :=
  let headers0 := hset [] "X-RateLimit-Limit" (toString maxRequests)
  let headers1 :=
    hset headers0 "X-RateLimit-Remaining" (toString result.remaining)
  if result.resetAt ≠ 0 then
    hset headers1 "X-RateLimit-Reset" (toISOString result.resetAt)
  else headers1

/-- `checkRateLimit(request, maxRequests, windowMs)`.  The probabilistic
`Math.random() < 0.001` draw is the explicit input `doCleanup`; the
enforcement always happens through the module-level `globalRateLimiter`,
the arguments feed only the `X-RateLimit-Limit` header text.  Returns the
result and the updated global limiter map. -/
def checkRateLimit (req : RequestInfo) (maxRequests windowMs : Nat)
    (st : LimiterState) (now : Nat) (doCleanup : Bool) :
    RateCheckResult × LimiterState :=
  let st1 := if doCleanup then RateLimiter.cleanup st now else st
  let r := globalRateLimiter.isAllowed st1 (getClientId req) now
  let result := r.1
  let headers := rateLimitHeaders maxRequests result
  if result.allowed then
    (⟨true, none, headers⟩, r.2)
  else
    (⟨false,
      some ⟨429, .json "Too many requests" "Rate limit exceeded. Please try again later.",
        hset headers "Retry-After" (toString (retryAfterSeconds result.resetAt now))⟩,
      headers⟩, r.2)

/-- Result of `handleCORS`: `{ isPreflight; preflightResponse? }`. -/
structure CORSResult where
  isPreflight : Bool
  preflightResponse : Option ResponseInfo
deriving DecidableEq, Repr

/-- The five headers of the successful preflight response. -/
def preflightHeaders (allowedOrigin : String) : List (String × String) :=
  [("Access-Control-Allow-Origin", allowedOrigin),
   ("Access-Control-Allow-Methods", "GET, POST, PUT, DELETE, PATCH, OPTIONS"),
   ("Access-Control-Allow-Headers", "Content-Type, Authorization"),
   ("Access-Control-Max-Age", "86400"),
   ("Access-Control-Allow-Credentials", "true")]

/-- `handleCORS(request, allowedOrigin)`. -/
def handleCORS (req : RequestInfo) (allowedOrigin : String) : CORSResult :=
  if req.method = "OPTIONS" then
    if req.origin = some allowedOrigin then
      ⟨true, some ⟨204, .empty, preflightHeaders allowedOrigin⟩⟩
    else
      ⟨true, some ⟨403, .text "Forbidden", []⟩⟩
  else ⟨false, none⟩

/-- `addCORSHeaders(response, request, allowedOrigin)`. -/
def addCORSHeaders (response : ResponseInfo) (req : RequestInfo)
    (allowedOrigin : String) : ResponseInfo :=
  if req.origin = some allowedOrigin then
    { response with
      headers :=
        hset (hset (hset response.headers
          "Access-Control-Allow-Origin" allowedOrigin)
          "Access-Control-Allow-Credentials" "true")
          "Vary" "Origin" }
  else response

/-- The fixed security header set of `addSecurityHeaders`. -/
def securityHeaderList : List (String × String) :=
  [("X-Frame-Options", "DENY"),
   ("X-Content-Type-Options", "nosniff"),
   ("X-XSS-Protection", "1; mode=block"),
   ("Strict-Transport-Security", "max-age=31536000; includeSubDomains"),
   ("Content-Security-Policy",
    "default-src 'self'; script-src 'self' 'unsafe-inline' 'unsafe-eval'; style-src 'self' 'unsafe-inline' https://fonts.googleapis.com; font-src 'self' https://fonts.gstatic.com; img-src 'self' data: https:; connect-src 'self'"),
   ("Referrer-Policy", "strict-origin-when-cross-origin"),
   ("Permissions-Policy",
    "geolocation=(), microphone=(), camera=(), payment=(), usb=(), magnetometer=(), gyroscope=(), speaker=()")]

/-- `addSecurityHeaders(response)`: sets the seven fixed headers. -/
def addSecurityHeaders (response : ResponseInfo) : ResponseInfo :=
  { response with
    headers := securityHeaderList.foldl (fun hs p => hset hs p.1 p.2) response.headers }

/-- Result of `applyMiddleware`: `{ error?; modifiedRequest? }`. -/
structure MiddlewareResult where
  error : Option ResponseInfo
  modifiedRequest : Option RequestInfo
deriving DecidableEq, Repr

/-- `applyMiddleware(request, options)`: body-size check first, then rate
check; `Except.error` propagates a `parseSize` configuration throw. -/
def applyMiddleware (req : RequestInfo) (bodySizeLimit : String)
    (maxRequests windowMs : Nat) (st : LimiterState) (now : Nat)
    (doCleanup : Bool) : Except String MiddlewareResult × LimiterState :=
  match checkBodySizeLimit req bodySizeLimit with
  | .error e => (.error e, st)
  | .ok bodyCheck =>
    if bodyCheck.valid = false then
      (.ok ⟨bodyCheck.error, none⟩, st)
    else
      let rc := checkRateLimit req maxRequests windowMs st now doCleanup
      if rc.1.allowed = false then
        (.ok ⟨rc.1.error, none⟩, rc.2)
      else
        (.ok ⟨none, some req⟩, rc.2)

/-- The origin resolution of the worker: `env.FRONTEND_URL ||
"http://localhost:5173"` (the empty string is falsy). -/
def resolveAllowedOrigin (frontendUrl : Option String) : String :=
  match frontendUrl with
  | some u => if u = "" then "http://localhost:5173" else u
  | none => "http://localhost:5173"

/-- The worker `fetch` handler (entry `src/unnamed/part_000`): resolve the
allowed origin, answer preflights directly, run `applyMiddleware` with
`bodySizeLimit: "10mb"` and `rateLimit: { maxRequests: 100, windowMs:
15*60*1000 }`, and decorate the middleware-error or downstream response
with `addSecurityHeaders` then `addCORSHeaders`.  The downstream React
Router handler is the opaque parameter `downstream`. -/
def fetchHandler (req : RequestInfo) (frontendUrl : Option String)
    (downstream : RequestInfo → ResponseInfo) (st : LimiterState)
    (now : Nat) (doCleanup : Bool) :
    Except String ResponseInfo × LimiterState :=
  let allowedOrigin := resolveAllowedOrigin frontendUrl
  let corsResult := handleCORS req allowedOrigin
  if corsResult.isPreflight then
    match corsResult.preflightResponse with
    | some r => (.ok r, st)
    | none => (.ok ⟨204, .empty, []⟩, st)
  else
    match applyMiddleware req "10mb" 100 (15 * 60 * 1000) st now doCleanup with
    | (.error e, st2) => (.error e, st2)
    | (.ok mres, st2) =>
      match mres.error with
      | some err =>
        (.ok (addCORSHeaders (addSecurityHeaders err) req allowedOrigin), st2)
      | none =>
        let response := downstream (mres.modifiedRequest.getD req)
        (.ok (addCORSHeaders (addSecurityHeaders response) req allowedOrigin), st2)

/-! ### Header-map lemmas -/

theorem hget_hset_self (hs : List (String × String)) (n v : String) :
    hget (hset hs n v) n = some v := by
  induction hs with
  | nil => simp [hget, hset]
  | cons a t ih =>
    by_cases h : lowerStr a.1 = lowerStr n <;>
      simpa [hget, hset, h, List.find?] using ih

theorem hget_hset_other (hs : List (String × String)) (n v m : String)
    (hnm : lowerStr n ≠ lowerStr m) :
    hget (hset hs n v) m = hget hs m := by
  induction hs with
  | nil => simp [hget, hset, List.find?, hnm]
  | cons a t ih =>
    by_cases hn : lowerStr a.1 = lowerStr n
    · have hm : lowerStr a.1 ≠ lowerStr m := fun h => hnm (hn ▸ h)
      simpa [hget, hset, hn, hm, hnm, Ne.symm hnm, List.find?] using ih
    · by_cases hm : lowerStr a.1 = lowerStr m
      · simp [hget, hset, hn, hm, hnm, Ne.symm hnm, List.find?]
      · simpa [hget, hset, hn, hm, hnm, Ne.symm hnm, List.find?] using ih

theorem addSecurityHeaders_status (r : ResponseInfo) :
    (addSecurityHeaders r).status = r.status := rfl

theorem addSecurityHeaders_body (r : ResponseInfo) :
    (addSecurityHeaders r).body = r.body := rfl

/-- After `addSecurityHeaders`, each of the seven fixed headers is present
with its documented value. -/
theorem hget_addSecurityHeaders (r : ResponseInfo) (p : String × String)
    (hp : p ∈ securityHeaderList) :
    hget (addSecurityHeaders r).headers p.1 = some p.2 := by
  fin_cases hp <;>
    simp only [addSecurityHeaders, securityHeaderList, List.foldl] <;>
    repeat first
      | rw [hget_hset_self]
      | rw [hget_hset_other _ _ _ _ (by decide)]

/-- `addCORSHeaders` never touches a header outside its three names. -/
theorem hget_addCORSHeaders_other (r : ResponseInfo) (req : RequestInfo)
    (allowedOrigin m : String)
    (h1 : lowerStr m ≠ lowerStr "Access-Control-Allow-Origin")
    (h2 : lowerStr m ≠ lowerStr "Access-Control-Allow-Credentials")
    (h3 : lowerStr m ≠ lowerStr "Vary") :
    hget (addCORSHeaders r req allowedOrigin).headers m = hget r.headers m := by
  unfold addCORSHeaders
  by_cases h : req.origin = some allowedOrigin
  · rw [if_pos h]
    show hget (hset (hset (hset r.headers
        "Access-Control-Allow-Origin" allowedOrigin)
        "Access-Control-Allow-Credentials" "true")
        "Vary" "Origin") m = hget r.headers m
    rw [hget_hset_other _ _ _ _ (Ne.symm h3),
      hget_hset_other _ _ _ _ (Ne.symm h2),
      hget_hset_other _ _ _ _ (Ne.symm h1)]
  · rw [if_neg h]

theorem addCORSHeaders_preserves_status (resp : ResponseInfo) (req : RequestInfo)
    (ao : String) : (addCORSHeaders resp req ao).status = resp.status := by
  unfold addCORSHeaders; split <;> rfl

theorem addCORSHeaders_preserves_body (resp : ResponseInfo) (req : RequestInfo)
    (ao : String) : (addCORSHeaders resp req ao).body = resp.body := by
  unfold addCORSHeaders; split <;> rfl

theorem hget_addCORSHeaders_origin (resp : ResponseInfo) (req : RequestInfo)
    (ao : String) (h : req.origin = some ao) :
    hget (addCORSHeaders resp req ao).headers "Access-Control-Allow-Origin" =
      some ao := by
  unfold addCORSHeaders
  rw [if_pos h]
  show hget (hset (hset (hset resp.headers
      "Access-Control-Allow-Origin" ao)
      "Access-Control-Allow-Credentials" "true")
      "Vary" "Origin") "Access-Control-Allow-Origin" = some ao
  rw [hget_hset_other _ _ _ _ (by decide), hget_hset_other _ _ _ _ (by decide),
    hget_hset_self]

theorem hget_addCORSHeaders_credentials (resp : ResponseInfo) (req : RequestInfo)
    (ao : String) (h : req.origin = some ao) :
    hget (addCORSHeaders resp req ao).headers "Access-Control-Allow-Credentials" =
      some "true" := by
  unfold addCORSHeaders
  rw [if_pos h]
  show hget (hset (hset (hset resp.headers
      "Access-Control-Allow-Origin" ao)
      "Access-Control-Allow-Credentials" "true")
      "Vary" "Origin") "Access-Control-Allow-Credentials" = some "true"
  rw [hget_hset_other _ _ _ _ (by decide), hget_hset_self]

theorem hget_addCORSHeaders_vary (resp : ResponseInfo) (req : RequestInfo)
    (ao : String) (h : req.origin = some ao) :
    hget (addCORSHeaders resp req ao).headers "Vary" = some "Origin" := by
  unfold addCORSHeaders
  rw [if_pos h]
  show hget (hset (hset (hset resp.headers
      "Access-Control-Allow-Origin" ao)
      "Access-Control-Allow-Credentials" "true")
      "Vary" "Origin") "Vary" = some "Origin"
  rw [hget_hset_self]

/-! ### Branch lemmas for `RateLimiter.isAllowed` -/

theorem isAllowed_eq_fresh (rl : RateLimiter) (st : LimiterState)
    (cid : String) (now : Nat)
    (h : st cid = none ∨ ∃ r, st cid = some r ∧ r.resetAt < now) :
    rl.isAllowed st cid now =
      (⟨true, (rl.maxRequests : Int) - 1, now + rl.windowMs⟩,
        st.set cid ⟨1, now + rl.windowMs⟩) := by
  rcases h with h | ⟨r, hr, hlt⟩
  · simp [RateLimiter.isAllowed, h]
  · simp [RateLimiter.isAllowed, hr, hlt]

theorem isAllowed_eq_deny (rl : RateLimiter) (st : LimiterState)
    (cid : String) (now : Nat) (r : ClientRecord) (hr : st cid = some r)
    (h1 : ¬ r.resetAt < now) (h2 : rl.maxRequests ≤ r.count) :
    rl.isAllowed st cid now = (⟨false, 0, r.resetAt⟩, st) := by
  simp [RateLimiter.isAllowed, hr, h1, h2]

theorem isAllowed_eq_incr (rl : RateLimiter) (st : LimiterState)
    (cid : String) (now : Nat) (r : ClientRecord) (hr : st cid = some r)
    (h1 : ¬ r.resetAt < now) (h2 : r.count < rl.maxRequests) :
    rl.isAllowed st cid now =
      (⟨true, (rl.maxRequests : Int) - (r.count + 1), r.resetAt⟩,
        st.set cid ⟨r.count + 1, r.resetAt⟩) := by
  simp [RateLimiter.isAllowed, hr, h1, Nat.not_le.mpr h2]

/-! ### Claim theorems -/

/-- C2: `RateLimiter.isAllowed` implements the fixed-window counter
exactly: with no stored record, or with `now > resetAt`, it stores
`{count: 1, resetAt: now + windowMs}` and returns allowed with
`remaining = maxRequests - 1`; with a live record at capacity it returns
denied with `remaining = 0` and the stored `resetAt` unchanged; otherwise
it increments the count and returns allowed with
`remaining = maxRequests - count`. -/
theorem isAllowed_fixed_window_spec (rl : RateLimiter) (st : LimiterState)
    (cid : String) (now : Nat) :
    ((st cid = none ∨ ∃ r, st cid = some r ∧ r.resetAt < now) →
      rl.isAllowed st cid now =
        (⟨true, (rl.maxRequests : Int) - 1, now + rl.windowMs⟩,
          st.set cid ⟨1, now + rl.windowMs⟩)) ∧
    (∀ r, st cid = some r → ¬ r.resetAt < now → rl.maxRequests ≤ r.count →
      rl.isAllowed st cid now = (⟨false, 0, r.resetAt⟩, st)) ∧
    (∀ r, st cid = some r → ¬ r.resetAt < now → r.count < rl.maxRequests →
      rl.isAllowed st cid now =
        (⟨true, (rl.maxRequests : Int) - (r.count + 1), r.resetAt⟩,
          st.set cid ⟨r.count + 1, r.resetAt⟩)) :=
  ⟨fun h => isAllowed_eq_fresh rl st cid now h,
   fun r hr hle hmax => isAllowed_eq_deny rl st cid now r hr hle hmax,
   fun r hr hle hlt => isAllowed_eq_incr rl st cid now r hr hle hlt⟩

theorem isAllowed_fixed_window_spec_witness :
    (⟨2, 1000⟩ : RateLimiter).isAllowed LimiterState.empty "c" 5 =
      (⟨true, 1, 1005⟩, LimiterState.empty.set "c" ⟨1, 1005⟩) ∧
    (⟨2, 1000⟩ : RateLimiter).isAllowed
        (LimiterState.empty.set "c" ⟨2, 1000⟩) "c" 600 =
      (⟨false, 0, 1000⟩, LimiterState.empty.set "c" ⟨2, 1000⟩) ∧
    (⟨2, 1000⟩ : RateLimiter).isAllowed
        (LimiterState.empty.set "c" ⟨1, 1000⟩) "c" 600 =
      (⟨true, 0, 1000⟩,
        (LimiterState.empty.set "c" ⟨1, 1000⟩).set "c" ⟨2, 1000⟩) :=
  ⟨(isAllowed_fixed_window_spec ⟨2, 1000⟩ LimiterState.empty "c" 5).1 (Or.inl rfl),
   (isAllowed_fixed_window_spec ⟨2, 1000⟩ _ "c" 600).2.1 ⟨2, 1000⟩ rfl
     (by decide) (by decide),
   (isAllowed_fixed_window_spec ⟨2, 1000⟩ _ "c" 600).2.2 ⟨1, 1000⟩ rfl
     (by decide) (by decide)⟩

/-- C4 counterexample: a request arriving at exactly `t = resetAt` does
NOT start a fresh window — with a stored record `{count: 5, resetAt: 1000}`
and a call at `now = 1000`, the count becomes 6 and `resetAt` stays 1000,
instead of the claimed reset to `{count: 1, resetAt: t + windowMs}`. -/
theorem isAllowed_at_resetAt_no_fresh_window :
    (((⟨100, 60000⟩ : RateLimiter).isAllowed
        (LimiterState.empty.set "c" ⟨5, 1000⟩) "c" 1000).2 "c" =
      some ⟨6, 1000⟩) ∧
    (((⟨100, 60000⟩ : RateLimiter).isAllowed
        (LimiterState.empty.set "c" ⟨5, 1000⟩) "c" 1000).2 "c" ≠
      some ⟨1, 1000 + 60000⟩) := by
  refine ⟨?_, ?_⟩ <;> decide

/-- C4 (amended): a request observed at time `t > resetAt` (strictly)
starts a fresh window — count reset to 1 and `resetAt = t + windowMs`;
a request arriving at exactly `t = resetAt` still falls into the current
window: it is counted against the existing counter (denied at capacity,
otherwise incremented), with `resetAt` unchanged. -/
theorem isAllowed_fresh_window_strict (rl : RateLimiter) (st : LimiterState)
    (cid : String) (now : Nat) (r : ClientRecord) (hr : st cid = some r) :
    (r.resetAt < now →
      rl.isAllowed st cid now =
        (⟨true, (rl.maxRequests : Int) - 1, now + rl.windowMs⟩,
          st.set cid ⟨1, now + rl.windowMs⟩)) ∧
    (now = r.resetAt →
      (rl.maxRequests ≤ r.count →
        rl.isAllowed st cid now = (⟨false, 0, r.resetAt⟩, st)) ∧
      (r.count < rl.maxRequests →
        rl.isAllowed st cid now =
          (⟨true, (rl.maxRequests : Int) - (r.count + 1), r.resetAt⟩,
            st.set cid ⟨r.count + 1, r.resetAt⟩))) := by
  refine ⟨?_, ?_⟩
  · intro hlt
    simp [RateLimiter.isAllowed, hr, hlt]
  · intro heq
    have hle : ¬ r.resetAt < now := by omega
    exact ⟨fun hmax => isAllowed_eq_deny rl st cid now r hr hle hmax,
      fun hlt => isAllowed_eq_incr rl st cid now r hr hle hlt⟩

theorem isAllowed_fresh_window_strict_witness :
    ((⟨100, 60000⟩ : RateLimiter).isAllowed
        (LimiterState.empty.set "c" ⟨5, 1000⟩) "c" 1001 =
      (⟨true, 99, 1001 + 60000⟩,
        (LimiterState.empty.set "c" ⟨5, 1000⟩).set "c" ⟨1, 1001 + 60000⟩)) ∧
    ((⟨100, 60000⟩ : RateLimiter).isAllowed
        (LimiterState.empty.set "c" ⟨5, 1000⟩) "c" 1000 =
      (⟨true, 94, 1000⟩,
        (LimiterState.empty.set "c" ⟨5, 1000⟩).set "c" ⟨6, 1000⟩)) :=
  ⟨(isAllowed_fresh_window_strict ⟨100, 60000⟩ _ "c" 1001 ⟨5, 1000⟩ rfl).1
      (by decide),
   ((isAllowed_fresh_window_strict ⟨100, 60000⟩ _ "c" 1000 ⟨5, 1000⟩ rfl).2
      rfl).2 (by decide)⟩

/-- C9: `handleCORS` on an `OPTIONS` request returns a 204 preflight
response carrying exactly the five documented CORS headers iff the
`Origin` header exactly equals the configured allowed origin; for any
other origin (including missing) it returns 403 with plain body
`Forbidden` and no CORS headers; on a non-`OPTIONS` method it reports
not-preflight with no response. -/
theorem handleCORS_spec (req : RequestInfo) (allowedOrigin : String) :
    (req.method = "OPTIONS" →
      (req.origin = some allowedOrigin →
        handleCORS req allowedOrigin =
          ⟨true, some ⟨204, Body.empty,
            [("Access-Control-Allow-Origin", allowedOrigin),
             ("Access-Control-Allow-Methods", "GET, POST, PUT, DELETE, PATCH, OPTIONS"),
             ("Access-Control-Allow-Headers", "Content-Type, Authorization"),
             ("Access-Control-Max-Age", "86400"),
             ("Access-Control-Allow-Credentials", "true")]⟩⟩) ∧
      (req.origin ≠ some allowedOrigin →
        handleCORS req allowedOrigin =
          ⟨true, some ⟨403, Body.text "Forbidden", []⟩⟩)) ∧
    (req.method ≠ "OPTIONS" →
      handleCORS req allowedOrigin = ⟨false, none⟩) := by
  refine ⟨fun hm => ⟨fun ho => ?_, fun ho => ?_⟩, fun hm => ?_⟩
  · simp [handleCORS, preflightHeaders, hm, ho]
  · simp [handleCORS, hm, ho]
  · simp [handleCORS, hm]

theorem handleCORS_spec_witness :
    (handleCORS ⟨"OPTIONS", none, some "https://app.example", none, none⟩
        "https://app.example" =
      ⟨true, some ⟨204, Body.empty,
        [("Access-Control-Allow-Origin", "https://app.example"),
         ("Access-Control-Allow-Methods", "GET, POST, PUT, DELETE, PATCH, OPTIONS"),
         ("Access-Control-Allow-Headers", "Content-Type, Authorization"),
         ("Access-Control-Max-Age", "86400"),
         ("Access-Control-Allow-Credentials", "true")]⟩⟩) ∧
    (handleCORS ⟨"OPTIONS", none, none, none, none⟩ "https://app.example" =
      ⟨true, some ⟨403, Body.text "Forbidden", []⟩⟩) ∧
    (handleCORS ⟨"POST", none, some "https://evil.example", none, none⟩
        "https://app.example" = ⟨false, none⟩) :=
  ⟨((handleCORS_spec ⟨"OPTIONS", none, some "https://app.example", none, none⟩
      "https://app.example").1 rfl).1 rfl,
   ((handleCORS_spec ⟨"OPTIONS", none, none, none, none⟩
      "https://app.example").1 rfl).2 (by decide),
   (handleCORS_spec ⟨"POST", none, some "https://evil.example", none, none⟩
      "https://app.example").2 (by decide)⟩

/-- C10: `addCORSHeaders` adds exactly `Access-Control-Allow-Origin` (the
allowed origin), `Access-Control-Allow-Credentials: true` and
`Vary: Origin` iff the request's `Origin` header exactly equals the
configured allowed origin, leaving every other header, the status and the
body untouched; with any other origin the response is returned
completely unmodified. -/
theorem addCORSHeaders_spec (resp : ResponseInfo) (req : RequestInfo)
    (allowedOrigin : String) :
    (req.origin = some allowedOrigin →
      (addCORSHeaders resp req allowedOrigin).status = resp.status ∧
      (addCORSHeaders resp req allowedOrigin).body = resp.body ∧
      hget (addCORSHeaders resp req allowedOrigin).headers
        "Access-Control-Allow-Origin" = some allowedOrigin ∧
      hget (addCORSHeaders resp req allowedOrigin).headers
        "Access-Control-Allow-Credentials" = some "true" ∧
      hget (addCORSHeaders resp req allowedOrigin).headers "Vary" =
        some "Origin" ∧
      (∀ m, lowerStr m ≠ lowerStr "Access-Control-Allow-Origin" →
        lowerStr m ≠ lowerStr "Access-Control-Allow-Credentials" →
        lowerStr m ≠ lowerStr "Vary" →
        hget (addCORSHeaders resp req allowedOrigin).headers m =
          hget resp.headers m)) ∧
    (req.origin ≠ some allowedOrigin →
      addCORSHeaders resp req allowedOrigin = resp) := by
  refine ⟨fun ho => ?_, fun ho => ?_⟩
  · exact ⟨addCORSHeaders_preserves_status resp req allowedOrigin,
      addCORSHeaders_preserves_body resp req allowedOrigin,
      hget_addCORSHeaders_origin resp req allowedOrigin ho,
      hget_addCORSHeaders_credentials resp req allowedOrigin ho,
      hget_addCORSHeaders_vary resp req allowedOrigin ho,
      fun m h1 h2 h3 =>
        hget_addCORSHeaders_other resp req allowedOrigin m h1 h2 h3⟩
  · unfold addCORSHeaders
    rw [if_neg ho]

theorem addCORSHeaders_spec_witness :
    ((addCORSHeaders ⟨200, Body.text "hi", [("X-Custom", "v")]⟩
        ⟨"GET", none, some "https://app.example", none, none⟩
        "https://app.example").status = 200 ∧
      hget (addCORSHeaders ⟨200, Body.text "hi", [("X-Custom", "v")]⟩
        ⟨"GET", none, some "https://app.example", none, none⟩
        "https://app.example").headers "Access-Control-Allow-Origin" =
        some "https://app.example" ∧
      hget (addCORSHeaders ⟨200, Body.text "hi", [("X-Custom", "v")]⟩
        ⟨"GET", none, some "https://app.example", none, none⟩
        "https://app.example").headers "X-Custom" = some "v") ∧
    (addCORSHeaders ⟨200, Body.text "hi", [("X-Custom", "v")]⟩
        ⟨"GET", none, some "https://evil.example", none, none⟩
        "https://app.example" = ⟨200, Body.text "hi", [("X-Custom", "v")]⟩) :=
  ⟨⟨((addCORSHeaders_spec ⟨200, Body.text "hi", [("X-Custom", "v")]⟩
        ⟨"GET", none, some "https://app.example", none, none⟩
        "https://app.example").1 rfl).1,
    ((addCORSHeaders_spec ⟨200, Body.text "hi", [("X-Custom", "v")]⟩
        ⟨"GET", none, some "https://app.example", none, none⟩
        "https://app.example").1 rfl).2.2.1,
    (((addCORSHeaders_spec ⟨200, Body.text "hi", [("X-Custom", "v")]⟩
        ⟨"GET", none, some "https://app.example", none, none⟩
        "https://app.example").1 rfl).2.2.2.2.2 "X-Custom"
        (by decide) (by decide) (by decide)).trans (by decide)⟩,
   (addCORSHeaders_spec ⟨200, Body.text "hi", [("X-Custom", "v")]⟩
      ⟨"GET", none, some "https://evil.example", none, none⟩
      "https://app.example").2 (by decide)⟩

/-- C7: `checkBodySizeLimit` returns a terminal 413 iff the request
declares a `Content-Length` parsing to a value strictly greater than the
configured byte limit, with a message stating the observed size and the
limit in bytes; a declared length at or below the limit is never
rejected; a request with no `Content-Length` always passes (fail-open);
and in `applyMiddleware` the size check precedes the rate check, so a 413
is returned unchanged regardless of rate-limit state. -/
theorem checkBodySizeLimit_spec (req : RequestInfo) (limit : String)
    (L : Nat) (hL : parseSize limit = some L) :
    (∀ cl n, req.contentLength = some cl → jsParseInt cl = some n →
      (L : Int) < n →
      checkBodySizeLimit req limit =
        .ok ⟨false, some ⟨413, .json "Payload too large"
          (sizeLimitMessage n L), []⟩⟩) ∧
    (∀ e, checkBodySizeLimit req limit = .ok ⟨false, e⟩ →
      ∃ cl n, req.contentLength = some cl ∧ jsParseInt cl = some n ∧
        (L : Int) < n) ∧
    (∀ cl n, req.contentLength = some cl → jsParseInt cl = some n →
      n ≤ (L : Int) → checkBodySizeLimit req limit = .ok ⟨true, none⟩) ∧
    (req.contentLength = none →
      checkBodySizeLimit req limit = .ok ⟨true, none⟩) ∧
    (∀ maxR winMs st now dc e,
      checkBodySizeLimit req limit = .ok ⟨false, some e⟩ →
      applyMiddleware req limit maxR winMs st now dc =
        (.ok ⟨some e, none⟩, st)) := by
  refine ⟨?_, ?_, ?_, ?_, ?_⟩
  · intro cl n hcl hn hlt
    have hne : cl ≠ "" := by
      intro h
      subst h
      rw [show jsParseInt "" = none from rfl] at hn
      cases hn
    simp [checkBodySizeLimit, hcl, hne, hL, hn, hlt]
  · intro e he
    rcases hcl : req.contentLength with _ | cl
    · simp [checkBodySizeLimit, hcl] at he
    · by_cases hne : cl = ""
      · simp [checkBodySizeLimit, hcl, hne] at he
      · rcases hn : jsParseInt cl with _ | n
        · simp [checkBodySizeLimit, hcl, hne, hL, hn] at he
        · by_cases hlt : (L : Int) < n
          · exact ⟨cl, n, rfl, hn, hlt⟩
          · simp [checkBodySizeLimit, hcl, hne, hL, hn, hlt] at he
  · intro cl n hcl hn hle
    have hne : cl ≠ "" := by
      intro h
      subst h
      rw [show jsParseInt "" = none from rfl] at hn
      cases hn
    simp [checkBodySizeLimit, hcl, hne, hL, hn, Int.not_lt.mpr hle]
  · intro hcl
    rw [checkBodySizeLimit, hcl]
  · intro maxR winMs st now dc e he
    simp [applyMiddleware, he]

theorem checkBodySizeLimit_spec_witness :
    (checkBodySizeLimit ⟨"POST", some "2048", none, none, none⟩ "1kb" =
      .ok ⟨false, some ⟨413, .json "Payload too large"
        (sizeLimitMessage 2048 1024), []⟩⟩) ∧
    sizeLimitMessage 2048 1024 =
      "Request body size (2048 bytes) exceeds limit (1024 bytes)" ∧
    (checkBodySizeLimit ⟨"POST", some "512", none, none, none⟩ "1kb" =
      .ok ⟨true, none⟩) ∧
    (checkBodySizeLimit ⟨"POST", none, none, none, none⟩ "1kb" =
      .ok ⟨true, none⟩) ∧
    (applyMiddleware ⟨"POST", some "2048", none, none, none⟩ "1kb" 100 60000
        LimiterState.empty 0 false =
      (.ok ⟨some ⟨413, .json "Payload too large"
        (sizeLimitMessage 2048 1024), []⟩, none⟩, LimiterState.empty)) :=
  ⟨(checkBodySizeLimit_spec ⟨"POST", some "2048", none, none, none⟩ "1kb" 1024
      (by decide)).1 "2048" 2048 rfl (by decide) (by decide),
   by decide,
   (checkBodySizeLimit_spec ⟨"POST", some "512", none, none, none⟩ "1kb" 1024
      (by decide)).2.2.1 "512" 512 rfl (by decide) (by decide),
   (checkBodySizeLimit_spec ⟨"POST", none, none, none, none⟩ "1kb" 1024
      (by decide)).2.2.2.1 rfl,
   (checkBodySizeLimit_spec ⟨"POST", some "2048", none, none, none⟩ "1kb" 1024
      (by decide)).2.2.2.2 100 60000 LimiterState.empty 0 false _
      ((checkBodySizeLimit_spec ⟨"POST", some "2048", none, none, none⟩ "1kb"
        1024 (by decide)).1 "2048" 2048 rfl (by decide) (by decide))⟩

/-! ### List and character lemmas for `parseSize` -/

theorem takeWhile_append_all {α} (p : α → Bool) (l1 l2 : List α)
    (h : ∀ c ∈ l1, p c = true) :
    (l1 ++ l2).takeWhile p = l1 ++ l2.takeWhile p := by
  induction l1 with
  | nil => simp
  | cons a t ih =>
    simp [List.takeWhile_cons, h a (by simp),
      ih (fun c hc => h c (by simp [hc]))]

theorem dropWhile_append_all {α} (p : α → Bool) (l1 l2 : List α)
    (h : ∀ c ∈ l1, p c = true) :
    (l1 ++ l2).dropWhile p = l2.dropWhile p := by
  induction l1 with
  | nil => simp
  | cons a t ih =>
    simp [List.dropWhile_cons, h a (by simp),
      ih (fun c hc => h c (by simp [hc]))]

theorem takeWhile_all_false {α} (p : α → Bool) (l : List α)
    (h : ∀ c ∈ l, p c = false) : l.takeWhile p = [] := by
  cases l with
  | nil => rfl
  | cons a t => simp [List.takeWhile_cons, h a (by simp)]

theorem dropWhile_all_false {α} (p : α → Bool) (l : List α)
    (h : ∀ c ∈ l, p c = false) : l.dropWhile p = l := by
  cases l with
  | nil => rfl
  | cons a t => simp [List.dropWhile_cons, h a (by simp)]

theorem takeWhile_all_true {α} (p : α → Bool) (l : List α)
    (h : ∀ c ∈ l, p c = true) : l.takeWhile p = l := by
  simpa using takeWhile_append_all p l [] h

theorem dropWhile_all_true {α} (p : α → Bool) (l : List α)
    (h : ∀ c ∈ l, p c = true) : l.dropWhile p = [] := by
  simpa using dropWhile_append_all p l [] h

theorem letter_not_digit (c : Char) (h : 'a' ≤ c) : c.isDigit = false := by
  rw [Bool.eq_false_iff]
  intro hd
  rw [Char.isDigit] at hd
  simp at hd
  have h1 : (97 : Nat) ≤ c.val.toNat := h
  have h2 : c.val.toNat ≤ 57 := hd.2
  omega

theorem letter_not_whitespace (c : Char) (h : 'a' ≤ c) :
    c.isWhitespace = false := by
  rw [Bool.eq_false_iff]
  intro hw
  rw [Char.isWhitespace] at hw
  simp at hw
  rcases hw with ((h2 | h2) | h2) | h2 <;> subst h2 <;> revert h <;> decide

theorem letter_ne_dot (c : Char) (h : 'a' ≤ c) : c ≠ '.' := by
  intro h2
  subst h2
  revert h
  decide

/-- General behaviour of the size parser on a digit string followed by an
arbitrary lowercase-letter unit: the unit resolves through
`unitMultiplier`, which defaults unrecognised units to 1 byte. -/
theorem parseSizeCore_digits_unit (ds us : List Char) (hds : ds ≠ [])
    (hd : ∀ c ∈ ds, c.isDigit = true)
    (hu : ∀ c ∈ us, 'a' ≤ c ∧ c ≤ 'z') :
    parseSizeCore (ds ++ us) = some (digitsToNat ds * unitMultiplier us) := by
  have hund : ∀ c ∈ us, c.isDigit = false :=
    fun c hc => letter_not_digit c (hu c hc).1
  have hunw : ∀ c ∈ us, c.isWhitespace = false :=
    fun c hc => letter_not_whitespace c (hu c hc).1
  have h1 : (ds ++ us).takeWhile Char.isDigit = ds := by
    rw [takeWhile_append_all _ _ _ hd, takeWhile_all_false _ _ hund,
      List.append_nil]
  have h2 : (ds ++ us).dropWhile Char.isDigit = us := by
    rw [dropWhile_append_all _ _ _ hd, dropWhile_all_false _ _ hund]
  have h3 : us.head? ≠ some '.' := by
    cases us with
    | nil => simp
    | cons u ut =>
      simp only [List.head?_cons, ne_eq, Option.some.injEq]
      exact letter_ne_dot u (hu u (by simp)).1
  have h4 : us.dropWhile Char.isWhitespace = us := dropWhile_all_false _ _ hunw
  have h5 : us.takeWhile (fun c => 'a' ≤ c ∧ c ≤ 'z') = us :=
    takeWhile_all_true _ _ (fun c hc => by simpa using hu c hc)
  have h6 : us.dropWhile (fun c => 'a' ≤ c ∧ c ≤ 'z') = [] :=
    dropWhile_all_true _ _ (fun c hc => by simpa using hu c hc)
  rw [parseSizeCore]
  simp only [h1, h2]
  rw [if_neg hds, if_neg h3, parseSizeTail]
  simp only [h4, h5, h6]
  simp

/-- C8 counterexample: the string `"10q"` carries the unit suffix `q`,
which is not among b/kb/mb/gb, yet `parseSize` does NOT throw on it —
`units[unit] || 1` silently defaults the multiplier to 1, and the call
returns 10. -/
theorem parseSize_unknown_unit_no_throw :
    parseSize "10q" = some 10 ∧ parseSize "10q" ≠ none := by
  refine ⟨?_, ?_⟩ <;> decide

/-- C8 (amended): `parseSize` maps a digit string (optionally with a
decimal part) plus an optional case-insensitive unit suffix to a byte
count, with b/kb/mb/gb resolving to 1/1024/1024²/1024³; it throws on
strings that do not match the digits-then-letters shape (empty, letters
only, double decimal point, interior digits after the unit); but a
lowercase-letter unit suffix OUTSIDE b/kb/mb/gb does not throw — the
multiplier silently defaults to 1 (bytes). -/
theorem parseSize_spec :
    (∀ ds us : List Char, ds ≠ [] → (∀ c ∈ ds, c.isDigit = true) →
      (∀ c ∈ us, 'a' ≤ c ∧ c ≤ 'z') →
      parseSizeCore (ds ++ us) =
        some (digitsToNat ds * unitMultiplier us)) ∧
    parseSize "1kb" = some 1024 ∧
    parseSize "10mb" = some 10485760 ∧
    parseSize "512" = some 512 ∧
    parseSize "3GB" = some 3221225472 ∧
    parseSize "1.5kb" = some 1536 ∧
    parseSize "10q" = some 10 ∧
    parseSize "7xyz" = some 7 ∧
    parseSize "" = none ∧
    parseSize "abc" = none ∧
    parseSize "1.2.3" = none ∧
    parseSize "12 34" = none :=
  ⟨parseSizeCore_digits_unit, by decide, by decide, by decide, by decide,
   by decide, by decide, by decide, by decide, by decide, by decide,
   by decide⟩

theorem parseSize_spec_witness :
    parseSizeCore (['4', '2'] ++ ['m', 'b']) = some (42 * (1024 * 1024)) :=
  parseSize_spec.1 ['4', '2'] ['m', 'b'] (by decide) (by decide) (by decide)

/-- The stored-count invariant of the rate limiter: every stored window
has `count ≤ maxRequests`. -/
def CountInv (rl : RateLimiter) (st : LimiterState) : Prop :=
  ∀ cid r, st cid = some r → r.count ≤ rl.maxRequests

/-- C5: with a positive quota, every stored window satisfies
`count ≤ maxRequests` after each `isAllowed` call; the `remaining`
returned on an admitted request is never negative; and within one window
(second call not past the first verdict's `resetAt`) the `remaining` of
the next admitted request is exactly one less than the previous one. -/
theorem rateLimiter_invariants (rl : RateLimiter)
    (hmax : 1 ≤ rl.maxRequests) :
    (∀ st cid now, CountInv rl st →
      CountInv rl (rl.isAllowed st cid now).2) ∧
    (∀ st cid now v st2, rl.isAllowed st cid now = (v, st2) →
      v.allowed = true → 0 ≤ v.remaining) ∧
    (∀ st cid now1 now2 v1 st1 v2 st2,
      rl.isAllowed st cid now1 = (v1, st1) → v1.allowed = true →
      rl.isAllowed st1 cid now2 = (v2, st2) → v2.allowed = true →
      now2 ≤ v1.resetAt →
      v2.remaining = v1.remaining - 1) := by
  have fresh_or : ∀ (st : LimiterState) (cid : String) (now : Nat),
      st cid = none ∨ (∃ r, st cid = some r ∧ r.resetAt < now) ∨
        ∃ r, st cid = some r ∧ ¬ r.resetAt < now := by
    intro st cid now
    rcases h : st cid with _ | r
    · exact Or.inl rfl
    · by_cases hlt : r.resetAt < now
      · exact Or.inr (Or.inl ⟨r, rfl, hlt⟩)
      · exact Or.inr (Or.inr ⟨r, rfl, hlt⟩)
  refine ⟨?_, ?_, ?_⟩
  · intro st cid now hInv cid2 r2 h2
    rcases fresh_or st cid now with h | ⟨r, hr, hlt⟩ | ⟨r, hr, hle⟩
    · rw [isAllowed_eq_fresh rl st cid now (Or.inl h)] at h2
      simp only [LimiterState.set] at h2
      by_cases hcid : cid2 = cid
      · rw [if_pos hcid] at h2
        cases h2
        exact hmax
      · rw [if_neg hcid] at h2
        exact hInv cid2 r2 h2
    · rw [isAllowed_eq_fresh rl st cid now (Or.inr ⟨r, hr, hlt⟩)] at h2
      simp only [LimiterState.set] at h2
      by_cases hcid : cid2 = cid
      · rw [if_pos hcid] at h2
        cases h2
        exact hmax
      · rw [if_neg hcid] at h2
        exact hInv cid2 r2 h2
    · by_cases hcap : rl.maxRequests ≤ r.count
      · rw [isAllowed_eq_deny rl st cid now r hr hle hcap] at h2
        exact hInv cid2 r2 h2
      · rw [isAllowed_eq_incr rl st cid now r hr hle (Nat.not_le.mp hcap)]
          at h2
        simp only [LimiterState.set] at h2
        by_cases hcid : cid2 = cid
        · rw [if_pos hcid] at h2
          cases h2
          exact Nat.not_le.mp hcap
        · rw [if_neg hcid] at h2
          exact hInv cid2 r2 h2
  · intro st cid now v st2 hEq hA
    rcases fresh_or st cid now with h | ⟨r, hr, hlt⟩ | ⟨r, hr, hle⟩
    · rw [isAllowed_eq_fresh rl st cid now (Or.inl h)] at hEq
      cases hEq
      simp only
      omega
    · rw [isAllowed_eq_fresh rl st cid now (Or.inr ⟨r, hr, hlt⟩)] at hEq
      cases hEq
      simp only
      omega
    · by_cases hcap : rl.maxRequests ≤ r.count
      · rw [isAllowed_eq_deny rl st cid now r hr hle hcap] at hEq
        cases hEq
        cases hA
      · rw [isAllowed_eq_incr rl st cid now r hr hle (Nat.not_le.mp hcap)]
          at hEq
        cases hEq
        simp only
        have := Nat.not_le.mp hcap
        omega
  · intro st cid now1 now2 v1 st1 v2 st2 h1 hA1 h2 hA2 hwin
    rcases fresh_or st cid now1 with h | ⟨r, hr, hlt⟩ | ⟨r, hr, hle⟩
    · rw [isAllowed_eq_fresh rl st cid now1 (Or.inl h)] at h1
      cases h1
      have hrec1 : (st.set cid ⟨1, now1 + rl.windowMs⟩) cid =
          some ⟨1, now1 + rl.windowMs⟩ := by simp [LimiterState.set]
      have hle2 : ¬ (⟨1, now1 + rl.windowMs⟩ : ClientRecord).resetAt < now2 := by
        simp only at hwin ⊢
        omega
      by_cases hcap : rl.maxRequests ≤ 1
      · rw [isAllowed_eq_deny rl _ cid now2 _ hrec1 hle2 hcap] at h2
        cases h2
        cases hA2
      · rw [isAllowed_eq_incr rl _ cid now2 _ hrec1 hle2 (Nat.not_le.mp hcap)]
          at h2
        cases h2
        simp only
        omega
    · rw [isAllowed_eq_fresh rl st cid now1 (Or.inr ⟨r, hr, hlt⟩)] at h1
      cases h1
      have hrec1 : (st.set cid ⟨1, now1 + rl.windowMs⟩) cid =
          some ⟨1, now1 + rl.windowMs⟩ := by simp [LimiterState.set]
      have hle2 : ¬ (⟨1, now1 + rl.windowMs⟩ : ClientRecord).resetAt < now2 := by
        simp only at hwin ⊢
        omega
      by_cases hcap : rl.maxRequests ≤ 1
      · rw [isAllowed_eq_deny rl _ cid now2 _ hrec1 hle2 hcap] at h2
        cases h2
        cases hA2
      · rw [isAllowed_eq_incr rl _ cid now2 _ hrec1 hle2 (Nat.not_le.mp hcap)]
          at h2
        cases h2
        simp only
        omega
    · by_cases hcap : rl.maxRequests ≤ r.count
      · rw [isAllowed_eq_deny rl st cid now1 r hr hle hcap] at h1
        cases h1
        cases hA1
      · rw [isAllowed_eq_incr rl st cid now1 r hr hle (Nat.not_le.mp hcap)]
          at h1
        cases h1
        have hrec1 : (st.set cid ⟨r.count + 1, r.resetAt⟩) cid =
            some ⟨r.count + 1, r.resetAt⟩ := by simp [LimiterState.set]
        have hle2 : ¬ (⟨r.count + 1, r.resetAt⟩ : ClientRecord).resetAt < now2 := by
          simp only at hwin ⊢
          omega
        by_cases hcap2 : rl.maxRequests ≤ r.count + 1
        · rw [isAllowed_eq_deny rl _ cid now2 _ hrec1 hle2 hcap2] at h2
          cases h2
          cases hA2
        · rw [isAllowed_eq_incr rl _ cid now2 _ hrec1 hle2
            (Nat.not_le.mp hcap2)] at h2
          cases h2
          simp only
          omega

theorem rateLimiter_invariants_witness :
    (1 ≤ (⟨2, 1000⟩ : RateLimiter).maxRequests ∧
      CountInv ⟨2, 1000⟩
        ((⟨2, 1000⟩ : RateLimiter).isAllowed LimiterState.empty "c" 0).2) ∧
    0 ≤ (((⟨2, 1000⟩ : RateLimiter).isAllowed
      LimiterState.empty "c" 0).1).remaining ∧
    (((⟨2, 1000⟩ : RateLimiter).isAllowed
        ((⟨2, 1000⟩ : RateLimiter).isAllowed LimiterState.empty "c" 0).2
        "c" 500).1).remaining =
      (((⟨2, 1000⟩ : RateLimiter).isAllowed
        LimiterState.empty "c" 0).1).remaining - 1 :=
  ⟨⟨by decide,
    (rateLimiter_invariants ⟨2, 1000⟩ (by decide)).1 LimiterState.empty "c" 0
      (fun cid r h => Option.noConfusion h)⟩,
   (rateLimiter_invariants ⟨2, 1000⟩ (by decide)).2.1 LimiterState.empty "c" 0
     _ _ rfl (by decide),
   (rateLimiter_invariants ⟨2, 1000⟩ (by decide)).2.2 LimiterState.empty "c"
     0 500 _ _ _ _ rfl (by decide) rfl (by decide) (by decide)⟩

theorem hget_hset_eq (hs : List (String × String)) (n v m : String)
    (h : lowerStr n = lowerStr m) : hget (hset hs n v) m = some v := by
  induction hs with
  | nil => simp [hget, hset, List.find?, h]
  | cons a t ih =>
    by_cases hn : lowerStr a.1 = lowerStr n
    · simpa [hget, hset, hn, h, List.find?] using ih
    · have hm : ¬ lowerStr a.1 = lowerStr m := fun hm2 => hn (h ▸ hm2)
      simpa [hget, hset, hn, hm, List.find?] using ih

theorem hget_rateLimitHeaders_limit (m : Nat) (v : Verdict) :
    hget (rateLimitHeaders m v) "X-RateLimit-Limit" = some (toString m) := by
  unfold rateLimitHeaders
  by_cases hz : v.resetAt ≠ 0
  · rw [if_pos hz, hget_hset_other _ _ _ _ (by decide),
      hget_hset_other _ _ _ _ (by decide), hget_hset_self]
  · rw [if_neg hz, hget_hset_other _ _ _ _ (by decide), hget_hset_self]

/-- Only the `X-RateLimit-Limit` entry of the header block depends on the
`maxRequests` argument. -/
theorem hget_rateLimitHeaders_other (m1 m2 : Nat) (v : Verdict)
    (name : String) (h : lowerStr name ≠ lowerStr "X-RateLimit-Limit") :
    hget (rateLimitHeaders m1 v) name = hget (rateLimitHeaders m2 v) name := by
  have inner : hget (hset (hset [] "X-RateLimit-Limit" (toString m1))
        "X-RateLimit-Remaining" (toString v.remaining)) name =
      hget (hset (hset [] "X-RateLimit-Limit" (toString m2))
        "X-RateLimit-Remaining" (toString v.remaining)) name := by
    by_cases hR : lowerStr name = lowerStr "X-RateLimit-Remaining"
    · rw [hget_hset_eq _ _ _ _ hR.symm, hget_hset_eq _ _ _ _ hR.symm]
    · rw [hget_hset_other _ _ _ _ (Ne.symm hR),
        hget_hset_other _ _ _ _ (Ne.symm hR),
        hget_hset_other _ _ _ _ (Ne.symm h),
        hget_hset_other _ _ _ _ (Ne.symm h)]
  unfold rateLimitHeaders
  by_cases hz : v.resetAt ≠ 0
  · rw [if_pos hz, if_pos hz]
    by_cases hRs : lowerStr name = lowerStr "X-RateLimit-Reset"
    · rw [hget_hset_eq _ _ _ _ hRs.symm, hget_hset_eq _ _ _ _ hRs.symm]
    · rw [hget_hset_other _ _ _ _ (Ne.symm hRs),
        hget_hset_other _ _ _ _ (Ne.symm hRs)]
      exact inner
  · rw [if_neg hz, if_neg hz]
    exact inner

/-- C3: the admission decision of `checkRateLimit` is independent of its
`maxRequests`/`windowMs` arguments — for the same request, shared state
and instant, two calls with different arguments produce the same verdict,
the same resulting limiter state, and the same headers and error response
except for the `X-RateLimit-Limit` header text, which alone reflects the
`maxRequests` argument (enforcement always uses `globalRateLimiter`'s
constructor values, 100 per 60000 ms). -/
theorem checkRateLimit_args_only_limit_header (req : RequestInfo)
    (m1 w1 m2 w2 : Nat) (st : LimiterState) (now : Nat) (dc : Bool) :
    (checkRateLimit req m1 w1 st now dc).2 =
      (checkRateLimit req m2 w2 st now dc).2 ∧
    (checkRateLimit req m1 w1 st now dc).1.allowed =
      (checkRateLimit req m2 w2 st now dc).1.allowed ∧
    (∀ name, lowerStr name ≠ lowerStr "X-RateLimit-Limit" →
      hget (checkRateLimit req m1 w1 st now dc).1.headers name =
        hget (checkRateLimit req m2 w2 st now dc).1.headers name) ∧
    ((checkRateLimit req m1 w1 st now dc).1.error = none ↔
      (checkRateLimit req m2 w2 st now dc).1.error = none) ∧
    (∀ e1 e2, (checkRateLimit req m1 w1 st now dc).1.error = some e1 →
      (checkRateLimit req m2 w2 st now dc).1.error = some e2 →
      e1.status = e2.status ∧ e1.body = e2.body ∧
      ∀ name, lowerStr name ≠ lowerStr "X-RateLimit-Limit" →
        hget e1.headers name = hget e2.headers name) ∧
    hget (checkRateLimit req m1 w1 st now dc).1.headers "X-RateLimit-Limit" =
      some (toString m1) := by
  unfold checkRateLimit
  by_cases hA : (globalRateLimiter.isAllowed
      (if dc then RateLimiter.cleanup st now else st)
      (getClientId req) now).1.allowed = true
  · simp only [hA, if_true]
    refine ⟨trivial, trivial, ?_, trivial, ?_, ?_⟩
    · intro name hname
      exact hget_rateLimitHeaders_other m1 m2 _ name hname
    · intro e1 e2 h1e
      cases h1e
    · exact hget_rateLimitHeaders_limit m1 _
  · rw [Bool.not_eq_true] at hA
    simp only [hA, Bool.false_eq_true, if_false]
    refine ⟨trivial, trivial, ?_, by simp, ?_, ?_⟩
    · intro name hname
      exact hget_rateLimitHeaders_other m1 m2 _ name hname
    · intro e1 e2 h1e h2e
      cases h1e
      cases h2e
      refine ⟨rfl, rfl, ?_⟩
      intro name hname
      by_cases hRA : lowerStr name = lowerStr "Retry-After"
      · rw [hget_hset_eq _ _ _ _ hRA.symm, hget_hset_eq _ _ _ _ hRA.symm]
      · rw [hget_hset_other _ _ _ _ (Ne.symm hRA),
          hget_hset_other _ _ _ _ (Ne.symm hRA)]
        exact hget_rateLimitHeaders_other m1 m2 _ name hname
    · exact hget_rateLimitHeaders_limit m1 _

theorem checkRateLimit_args_only_limit_header_witness :
    ((checkRateLimit ⟨"POST", none, none, some "ip1", none⟩ 100 900000
        LimiterState.empty 7 false).2 =
      (checkRateLimit ⟨"POST", none, none, some "ip1", none⟩ 5 60000
        LimiterState.empty 7 false).2) ∧
    (hget (checkRateLimit ⟨"POST", none, none, some "ip1", none⟩ 100 900000
        LimiterState.empty 7 false).1.headers "X-RateLimit-Remaining" =
      hget (checkRateLimit ⟨"POST", none, none, some "ip1", none⟩ 5 60000
        LimiterState.empty 7 false).1.headers "X-RateLimit-Remaining") ∧
    hget (checkRateLimit ⟨"POST", none, none, some "ip1", none⟩ 100 900000
        LimiterState.empty 7 false).1.headers "X-RateLimit-Limit" =
      some "100" :=
  ⟨(checkRateLimit_args_only_limit_header ⟨"POST", none, none, some "ip1", none⟩
      100 900000 5 60000 LimiterState.empty 7 false).1,
   (checkRateLimit_args_only_limit_header ⟨"POST", none, none, some "ip1", none⟩
      100 900000 5 60000 LimiterState.empty 7 false).2.2.1
      "X-RateLimit-Remaining" (by decide),
   (checkRateLimit_args_only_limit_header ⟨"POST", none, none, some "ip1", none⟩
      100 900000 5 60000 LimiterState.empty 7 false).2.2.2.2.2⟩

/-! ### Cross-client lemmas -/

theorem isAllowed_other_key (rl : RateLimiter) (st : LimiterState)
    (cid : String) (now : Nat) (k : String) (hk : k ≠ cid) :
    (rl.isAllowed st cid now).2 k = st k := by
  rcases h : st cid with _ | r
  · rw [isAllowed_eq_fresh rl st cid now (Or.inl h)]
    simp [LimiterState.set, hk]
  · by_cases hlt : r.resetAt < now
    · rw [isAllowed_eq_fresh rl st cid now (Or.inr ⟨r, h, hlt⟩)]
      simp [LimiterState.set, hk]
    · by_cases hcap : rl.maxRequests ≤ r.count
      · rw [isAllowed_eq_deny rl st cid now r h hlt hcap]
      · rw [isAllowed_eq_incr rl st cid now r h hlt (Nat.not_le.mp hcap)]
        simp [LimiterState.set, hk]

theorem isAllowed_verdict_congr (rl : RateLimiter) (st1 st2 : LimiterState)
    (cid : String) (now : Nat) (h : st1 cid = st2 cid) :
    (rl.isAllowed st1 cid now).1 = (rl.isAllowed st2 cid now).1 := by
  rcases h2 : st2 cid with _ | r
  · rw [isAllowed_eq_fresh rl st1 cid now (Or.inl (h.trans h2)),
      isAllowed_eq_fresh rl st2 cid now (Or.inl h2)]
  · by_cases hlt : r.resetAt < now
    · rw [isAllowed_eq_fresh rl st1 cid now (Or.inr ⟨r, h.trans h2, hlt⟩),
        isAllowed_eq_fresh rl st2 cid now (Or.inr ⟨r, h2, hlt⟩)]
    · by_cases hcap : rl.maxRequests ≤ r.count
      · rw [isAllowed_eq_deny rl st1 cid now r (h.trans h2) hlt hcap,
          isAllowed_eq_deny rl st2 cid now r h2 hlt hcap]
      · rw [isAllowed_eq_incr rl st1 cid now r (h.trans h2) hlt
            (Nat.not_le.mp hcap),
          isAllowed_eq_incr rl st2 cid now r h2 hlt (Nat.not_le.mp hcap)]

theorem checkRateLimit_state (req : RequestInfo) (m w : Nat)
    (st : LimiterState) (now : Nat) (dc : Bool) :
    (checkRateLimit req m w st now dc).2 =
      (globalRateLimiter.isAllowed
        (if dc then RateLimiter.cleanup st now else st)
        (getClientId req) now).2 := by
  unfold checkRateLimit
  by_cases hA : (globalRateLimiter.isAllowed
      (if dc then RateLimiter.cleanup st now else st)
      (getClientId req) now).1.allowed = true
  · simp only [hA, if_true]
  · rw [Bool.not_eq_true] at hA
    simp only [hA, Bool.false_eq_true, if_false]

/-- One `checkRateLimit` call for a request of client A leaves any other
client's entry untouched, except that an expired entry may be deleted by
the cleanup sweep; the other client's future verdicts (at any instant not
before the call) are unaffected either way. -/
theorem checkRateLimit_other_client (req : RequestInfo) (m w : Nat)
    (st : LimiterState) (now : Nat) (dc : Bool) (k : String)
    (hk : k ≠ getClientId req) :
    ((checkRateLimit req m w st now dc).2 k = st k ∨
      (dc = true ∧ ∃ r, st k = some r ∧ r.resetAt < now ∧
        (checkRateLimit req m w st now dc).2 k = none)) ∧
    (∀ now2, now ≤ now2 →
      (globalRateLimiter.isAllowed ((checkRateLimit req m w st now dc).2)
        k now2).1 =
        (globalRateLimiter.isAllowed st k now2).1) := by
  have hstk : (checkRateLimit req m w st now dc).2 k =
      (if dc then RateLimiter.cleanup st now else st) k := by
    rw [checkRateLimit_state]
    exact isAllowed_other_key globalRateLimiter _ (getClientId req) now k hk
  have hcases : (checkRateLimit req m w st now dc).2 k = st k ∨
      (dc = true ∧ ∃ r, st k = some r ∧ r.resetAt < now ∧
        (checkRateLimit req m w st now dc).2 k = none) := by
    by_cases hdc : dc = true
    · subst hdc
      rw [if_pos rfl] at hstk
      have hclean : RateLimiter.cleanup st now k =
          match st k with
          | some r => if r.resetAt < now then none else some r
          | none => none := rfl
      rcases hr : st k with _ | r
      · refine Or.inl ?_
        rw [hstk, hclean, hr]
      · by_cases hlt : r.resetAt < now
        · refine Or.inr ⟨rfl, r, rfl, hlt, ?_⟩
          rw [hstk, hclean, hr]
          simp [hlt]
        · refine Or.inl ?_
          rw [hstk, hclean, hr]
          simp [hlt]
    · rw [if_neg hdc] at hstk
      exact Or.inl hstk
  refine ⟨hcases, ?_⟩
  intro now2 h2
  rcases hcases with h | ⟨_, r, hr, hlt, hnone⟩
  · exact isAllowed_verdict_congr globalRateLimiter _ st k now2 h
  · rw [isAllowed_eq_fresh globalRateLimiter _ k now2 (Or.inl hnone),
      isAllowed_eq_fresh globalRateLimiter st k now2
        (Or.inr ⟨r, hr, lt_of_lt_of_le hlt h2⟩)]

/-- A sequence of `checkRateLimit` calls all carrying the same request
(i.e. all attributed to one client), threaded through the shared limiter
state; each step carries its `Date.now()` instant and its cleanup draw. -/
def processSeq (req : RequestInfo) (m w : Nat) (steps : List (Nat × Bool))
    (st : LimiterState) : LimiterState :=
  steps.foldl (fun s p => (checkRateLimit req m w s p.1 p.2).2) st

/-- C6 counterexample: a request of client `1.2.3.4` whose probabilistic
cleanup draw fires deletes the stored (expired) window of the distinct
client `b` — the claim that one client's requests never change another
client's stored window is violated by the sweep. -/
theorem cleanup_deletes_other_client_window :
    ((checkRateLimit ⟨"POST", none, none, some "1.2.3.4", none⟩ 100 60000
        (LimiterState.empty.set "b" ⟨3, 100⟩) 200 true).2 "b" = none) ∧
    (LimiterState.empty.set "b" ⟨3, 100⟩) "b" = some ⟨3, 100⟩ ∧
    "b" ≠ getClientId ⟨"POST", none, none, some "1.2.3.4", none⟩ := by
  refine ⟨?_, ?_, ?_⟩ <;> decide

/-- C6 (amended): processing any sequence of requests attributed to
client A never changes a distinct client B's stored window, EXCEPT that a
step whose probabilistic cleanup draw fires may delete B's window when it
is already expired at that step's instant; in every case, the verdict B
would receive at any time not earlier than the steps is completely
unchanged. -/
theorem clientIsolation (reqA : RequestInfo) (cidB : String)
    (hB : cidB ≠ getClientId reqA) (m w : Nat)
    (steps : List (Nat × Bool)) (st : LimiterState) (now2 : Nat)
    (hsteps : ∀ p ∈ steps, p.1 ≤ now2) :
    (processSeq reqA m w steps st cidB = st cidB ∨
      (∃ p ∈ steps, p.2 = true ∧
        (∃ r, st cidB = some r ∧ r.resetAt < p.1) ∧
        processSeq reqA m w steps st cidB = none)) ∧
    (globalRateLimiter.isAllowed (processSeq reqA m w steps st)
        cidB now2).1 =
      (globalRateLimiter.isAllowed st cidB now2).1 := by
  induction steps generalizing st with
  | nil => exact ⟨Or.inl rfl, rfl⟩
  | cons p rest ih =>
    have hstep := checkRateLimit_other_client reqA m w st p.1 p.2 cidB hB
    have hrest := ih ((checkRateLimit reqA m w st p.1 p.2).2)
      (fun q hq => hsteps q (List.mem_cons_of_mem p hq))
    have hfold : processSeq reqA m w (p :: rest) st =
        processSeq reqA m w rest ((checkRateLimit reqA m w st p.1 p.2).2) :=
      rfl
    constructor
    · rw [hfold]
      rcases hrest.1 with h | ⟨q, hq, hqc, ⟨r, hr, hrt⟩, hnone⟩
      · rw [h]
        rcases hstep.1 with h2 | ⟨hdc, r, hr, hlt, hnone⟩
        · exact Or.inl h2
        · exact Or.inr ⟨p, List.mem_cons_self p rest, hdc, ⟨r, hr, hlt⟩,
            hnone⟩
      · rcases hstep.1 with h2 | ⟨hdc, r2, hr2, hlt2, hnone2⟩
        · rw [h2] at hr
          exact Or.inr ⟨q, List.mem_cons_of_mem p hq, hqc, ⟨r, hr, hrt⟩,
            hnone⟩
        · rw [hnone2] at hr
          cases hr
    · rw [hfold, hrest.2]
      exact hstep.2 now2 (hsteps p (List.mem_cons_self p rest))

theorem clientIsolation_witness :
    (processSeq ⟨"POST", none, none, some "1.2.3.4", none⟩ 100 60000
        [(50, false), (80, true)]
        (LimiterState.empty.set "b" ⟨3, 1000⟩) "b" =
      (LimiterState.empty.set "b" ⟨3, 1000⟩) "b" ∨
      (∃ p ∈ [((50 : Nat), false), (80, true)], p.2 = true ∧
        (∃ r, (LimiterState.empty.set "b" ⟨3, 1000⟩) "b" = some r ∧
          r.resetAt < p.1) ∧
        processSeq ⟨"POST", none, none, some "1.2.3.4", none⟩ 100 60000
          [(50, false), (80, true)]
          (LimiterState.empty.set "b" ⟨3, 1000⟩) "b" = none)) ∧
    (globalRateLimiter.isAllowed
        (processSeq ⟨"POST", none, none, some "1.2.3.4", none⟩ 100 60000
          [(50, false), (80, true)]
          (LimiterState.empty.set "b" ⟨3, 1000⟩)) "b" 500).1 =
      (globalRateLimiter.isAllowed
        (LimiterState.empty.set "b" ⟨3, 1000⟩) "b" 500).1 :=
  clientIsolation ⟨"POST", none, none, some "1.2.3.4", none⟩ "b" (by decide)
    100 60000 [(50, false), (80, true)]
    (LimiterState.empty.set "b" ⟨3, 1000⟩) 500 (by decide)

/-! ### Worker orchestration lemmas -/

/-- The seven security headers survive the subsequent CORS decoration
(`addCORSHeaders` touches only its three own header names). -/
theorem hget_secured_then_cors (base : ResponseInfo) (req : RequestInfo)
    (ao : String) (p : String × String) (hp : p ∈ securityHeaderList) :
    hget (addCORSHeaders (addSecurityHeaders base) req ao).headers p.1 =
      some p.2 := by
  fin_cases hp <;>
    rw [hget_addCORSHeaders_other _ _ _ _ (by decide) (by decide)
      (by decide)] <;>
    exact hget_addSecurityHeaders base _ (by simp [securityHeaderList])

/-- With a well-formed limit string, `checkBodySizeLimit` never throws. -/
theorem checkBodySizeLimit_never_errors (req : RequestInfo) (limit : String)
    (L : Nat) (hL : parseSize limit = some L) :
    ∃ res, checkBodySizeLimit req limit = .ok res := by
  rcases hcl : req.contentLength with _ | cl
  · exact ⟨⟨true, none⟩, by simp [checkBodySizeLimit, hcl]⟩
  · by_cases hne : cl = ""
    · exact ⟨⟨true, none⟩, by simp [checkBodySizeLimit, hcl, hne]⟩
    · rcases hn : jsParseInt cl with _ | n
      · exact ⟨⟨true, none⟩, by simp [checkBodySizeLimit, hcl, hne, hL, hn]⟩
      · by_cases hlt : (L : Int) < n
        · exact ⟨⟨false, some ⟨413, .json "Payload too large"
            (sizeLimitMessage n L), []⟩⟩,
            by simp [checkBodySizeLimit, hcl, hne, hL, hn, hlt]⟩
        · exact ⟨⟨true, none⟩,
            by simp [checkBodySizeLimit, hcl, hne, hL, hn, hlt]⟩

/-- With a well-formed limit string, `applyMiddleware` never throws. -/
theorem applyMiddleware_never_errors (req : RequestInfo) (limit : String)
    (L : Nat) (hL : parseSize limit = some L) (m w : Nat)
    (st : LimiterState) (now : Nat) (dc : Bool) :
    ∃ mres st2, applyMiddleware req limit m w st now dc =
      (.ok mres, st2) := by
  obtain ⟨res, hres⟩ := checkBodySizeLimit_never_errors req limit L hL
  simp only [applyMiddleware, hres]
  by_cases hv : res.valid = false
  · rw [if_pos hv]
    exact ⟨_, _, rfl⟩
  · rw [if_neg hv]
    by_cases ha : (checkRateLimit req m w st now dc).1.allowed = false
    · rw [if_pos ha]
      exact ⟨_, _, rfl⟩
    · rw [if_neg ha]
      exact ⟨_, _, rfl⟩

/-- C1 counterexample: an OPTIONS preflight request from the allowed
origin is answered with the raw 204 response built by `handleCORS`; the
worker returns it WITHOUT `addSecurityHeaders`/`addCORSHeaders`, so this
outbound response carries none of the fixed security headers. -/
theorem fetchHandler_preflight_unsecured :
    (fetchHandler ⟨"OPTIONS", none, some "http://localhost:5173", none,
        none⟩ none (fun _ => ⟨200, .text "ok", []⟩)
        LimiterState.empty 0 false).1 =
      .ok ⟨204, Body.empty, preflightHeaders "http://localhost:5173"⟩ ∧
    hget (preflightHeaders "http://localhost:5173") "X-Frame-Options" =
      none ∧
    hget (preflightHeaders "http://localhost:5173")
      "Strict-Transport-Security" = none := by
  refine ⟨?_, ?_, ?_⟩
  · simp [fetchHandler, handleCORS, resolveAllowedOrigin]
  · decide
  · decide

/-- C1 (amended): for every non-preflight request (method ≠ OPTIONS) the
response that leaves the worker — whether the 413/429 middleware error or
the downstream handler's response — is decorated by `addSecurityHeaders`
and then `addCORSHeaders`, in that order, and therefore carries the full
fixed security-header set with the documented values; the OPTIONS
preflight short-circuits (204/403 from `handleCORS`) are the exception:
they are returned directly, with no decoration. -/
theorem fetchHandler_decoration (req : RequestInfo)
    (frontendUrl : Option String) (downstream : RequestInfo → ResponseInfo)
    (st : LimiterState) (now : Nat) (dc : Bool) :
    (req.method ≠ "OPTIONS" →
      ∃ base resp,
        (fetchHandler req frontendUrl downstream st now dc).1 = .ok resp ∧
        resp = addCORSHeaders (addSecurityHeaders base) req
          (resolveAllowedOrigin frontendUrl) ∧
        ∀ p ∈ securityHeaderList, hget resp.headers p.1 = some p.2) ∧
    (req.method = "OPTIONS" →
      (fetchHandler req frontendUrl downstream st now dc).1 =
        .ok ((handleCORS req
          (resolveAllowedOrigin frontendUrl)).preflightResponse.getD
            ⟨204, Body.empty, []⟩) ∧
      (fetchHandler req frontendUrl downstream st now dc).2 = st) := by
  constructor
  · intro hm
    obtain ⟨mres, st2, happ⟩ := applyMiddleware_never_errors req "10mb"
      10485760 (by decide) 100 (15 * 60 * 1000) st now dc
    have hcors : handleCORS req (resolveAllowedOrigin frontendUrl) =
        ⟨false, none⟩ := by
      simp [handleCORS, hm]
    rcases he : mres.error with _ | err
    · refine ⟨downstream (mres.modifiedRequest.getD req), _, ?_, rfl, ?_⟩
      · simp only [fetchHandler, hcors, Bool.false_eq_true, if_false, happ,
          he]
      · intro p hp
        exact hget_secured_then_cors _ req _ p hp
    · refine ⟨err, _, ?_, rfl, ?_⟩
      · simp only [fetchHandler, hcors, Bool.false_eq_true, if_false, happ,
          he]
      · intro p hp
        exact hget_secured_then_cors _ req _ p hp
  · intro hm
    by_cases ho : req.origin = some (resolveAllowedOrigin frontendUrl)
    · constructor <;>
        simp [fetchHandler, handleCORS, hm, ho]
    · constructor <;>
        simp [fetchHandler, handleCORS, hm, ho]

theorem fetchHandler_decoration_witness :
    (∃ base resp,
      (fetchHandler ⟨"POST", some "100", some "http://localhost:5173",
          some "ip", none⟩ none (fun _ => ⟨200, Body.text "ok", []⟩)
          LimiterState.empty 0 false).1 = .ok resp ∧
      resp = addCORSHeaders (addSecurityHeaders base)
        ⟨"POST", some "100", some "http://localhost:5173", some "ip", none⟩
        (resolveAllowedOrigin none) ∧
      ∀ p ∈ securityHeaderList, hget resp.headers p.1 = some p.2) ∧
    (fetchHandler ⟨"OPTIONS", none, some "http://localhost:5173", none,
        none⟩ none (fun _ => ⟨200, Body.text "ok", []⟩)
        LimiterState.empty 0 false).1 =
      .ok ((handleCORS ⟨"OPTIONS", none, some "http://localhost:5173",
        none, none⟩ (resolveAllowedOrigin none)).preflightResponse.getD
          ⟨204, Body.empty, []⟩) :=
  ⟨(fetchHandler_decoration ⟨"POST", some "100",
      some "http://localhost:5173", some "ip", none⟩ none
      (fun _ => ⟨200, Body.text "ok", []⟩) LimiterState.empty 0 false).1
      (by decide),
   ((fetchHandler_decoration ⟨"OPTIONS", none,
      some "http://localhost:5173", none, none⟩ none
      (fun _ => ⟨200, Body.text "ok", []⟩) LimiterState.empty 0 false).2
      rfl).1⟩
